import Mathlib

/-!
Verification of the IP address arithmetic engine (IPv4/IPv6 CIDR calculator).

The engine lives in `src/uuidGenerators.js`: an `Address` base class holding a
BigInt `address` and BigInt `prefixLength`, with `IPv4`/`IPv6` subclasses, a
`parseIp` entry point, NAT64 synthesis/extraction, type classification tables,
and a subnet-membership check (`handleCheckIp`).

JavaScript `BigInt` values are arbitrary-precision signed integers, so the
shallow embedding uses `ℤ` throughout.  The JS bitwise operators on BigInt
(`&`, `|`, `^`, `~`, `<<`, `>>`) act on the infinite two's-complement
representation; they are embedded as `Int.land`, `Int.lor`, `Int.xor`,
`Int.lnot`, `<<<`, `>>>` (the homogeneous `ℤ` shifts, which shift the other
way for a negative shift count, exactly as JS BigInt shifts do).

Strings are processed as `List Char` (`String.data`); the JS string methods
used by the source (`split`, `slice`, `padStart`, `replace` with the specific
regexes appearing in the source, `trim`) are embedded as list functions.
-/

set_option maxRecDepth 10000

/-! ### JS primitives: whitespace, digits, splitting -/

/-- Characters treated as whitespace by JS `trim` / `parseInt` (the
`StrWhiteSpaceChar` set: TAB LF VT FF CR SP NBSP LS PS BOM). -/
def isJsWs (c : Char) : Bool :=
  c.toNat = 9 ∨ c.toNat = 10 ∨ c.toNat = 11 ∨ c.toNat = 12 ∨ c.toNat = 13 ∨
  c.toNat = 32 ∨ c.toNat = 160 ∨ c.toNat = 0x2028 ∨ c.toNat = 0x2029 ∨
  c.toNat = 0xFEFF

/-- Decimal digit test (code points 48–57). -/
def isDecDigit (c : Char) : Bool := 48 ≤ c.toNat ∧ c.toNat ≤ 57

/-- Hexadecimal digit test (as accepted by JS `parseInt` with radix 16):
`0-9`, `a-f`, `A-F`. -/
def isHexDigit (c : Char) : Bool :=
  (48 ≤ c.toNat ∧ c.toNat ≤ 57) ∨ (97 ≤ c.toNat ∧ c.toNat ≤ 102) ∨
  (65 ≤ c.toNat ∧ c.toNat ≤ 70)

/-- Numeric value of a decimal digit. -/
def decDigitVal (c : Char) : ℕ := c.toNat - 48

/-- Numeric value of a hexadecimal digit. -/
def hexDigitVal (c : Char) : ℕ :=
  if 97 ≤ c.toNat ∧ c.toNat ≤ 102 then c.toNat - 87
  else if 65 ≤ c.toNat ∧ c.toNat ≤ 70 then c.toNat - 55
  else c.toNat - 48

/-- Value of a string of decimal digits, most significant first. -/
def decValue (l : List Char) : ℕ := l.foldl (fun a c => 10 * a + decDigitVal c) 0

/-- Value of a string of hexadecimal digits, most significant first. -/
def hexValue (l : List Char) : ℕ := l.foldl (fun a c => 16 * a + hexDigitVal c) 0

/-- JS `str.split(sep)` for a one-character separator: keeps empty pieces,
`"".split(c) = [""]`. -/
def splitOnChar (c : Char) : List Char → List (List Char)
  | [] => [[]]
  | ch :: rest =>
    let r := splitOnChar c rest
    if ch = c then [] :: r else (ch :: r.headD []) :: r.tail

/-- JS `str.split('::')`: splits on non-overlapping occurrences of two
consecutive colons, scanning left to right (so `"a:::b"` gives `["a", ":b"]`). -/
def splitOnDoubleColon : List Char → List (List Char)
  | [] => [[]]
  | [c] => [[c]]
  | ':' :: ':' :: rest => [] :: splitOnDoubleColon rest
  | c :: rest =>
    let r := splitOnDoubleColon rest
    (c :: r.headD []) :: r.tail

/-- JS `String.prototype.trim` (both ends). -/
def jsTrim (s : List Char) : List Char :=
  ((s.dropWhile (fun c => isJsWs c)).reverse.dropWhile (fun c => isJsWs c)).reverse

/-! ### JS numeric conversions -/

/-- JS `parseInt(s, 10)`: skip leading whitespace, optional sign, then the
longest run of decimal digits; `none` models the `NaN` result. Trailing
garbage is ignored. -/
def jsParseInt10 (s : List Char) : Option ℤ :=
  let t := s.dropWhile (fun c => isJsWs c)
  let sign : ℤ := if t.headD ' ' = '-' then -1 else 1
  let t2 := if t.headD ' ' = '+' ∨ t.headD ' ' = '-' then t.tail else t
  let digits := t2.takeWhile (fun c => isDecDigit c)
  if digits = [] then none
  else some (sign * (decValue digits : ℤ))

/-- JS `parseInt(s, 16)`: like `jsParseInt10` but hexadecimal, and an
optional `0x`/`0X` marker after the sign is skipped.  The JS function
returns a 64-bit float, which represents the result exactly as long as it is
below `2 ^ 53` (hextets of at most 13 hex digits); the embedding is exact. -/
def jsParseInt16 (s : List Char) : Option ℤ :=
  let t := s.dropWhile (fun c => isJsWs c)
  let sign : ℤ := if t.headD ' ' = '-' then -1 else 1
  let t2 := if t.headD ' ' = '+' ∨ t.headD ' ' = '-' then t.tail else t
  let body :=
    if t2.headD ' ' = '0' ∧ (t2.tail.headD ' ' = 'x' ∨ t2.tail.headD ' ' = 'X') then t2.tail.tail
    else t2
  let digits := body.takeWhile (fun c => isHexDigit c)
  if digits = [] then none
  else some (sign * (hexValue digits : ℤ))

/-- JS `BigInt(string)` (the `StringToBigInt` conversion): whitespace is
trimmed on both ends, the empty string converts to `0`, a decimal literal may
carry a sign, `0x`/`0o`/`0b` literals may not, and the whole remaining string
must be consumed; `none` models the thrown `SyntaxError`. -/
def jsStringToBigInt (s : List Char) : Option ℤ :=
  let decimalFrom : ℤ → List Char → Option ℤ := fun sign r =>
    if r ≠ [] ∧ r.all (fun c => isDecDigit c) then some (sign * (decValue r : ℤ)) else none
  let radixFrom : (Char → Bool) → (List Char → ℕ) → List Char → Option ℤ :=
    fun good val r => if r ≠ [] ∧ r.all good then some ((val r : ℕ) : ℤ) else none
  let t := jsTrim s
  if t = [] then some 0
  else
    let c := t.headD ' '
    let rest := t.tail
    if c = '0' ∧ (rest.headD ' ' = 'x' ∨ rest.headD ' ' = 'X') then
      radixFrom (fun c => isHexDigit c) hexValue rest.tail
    else if c = '0' ∧ (rest.headD ' ' = 'o' ∨ rest.headD ' ' = 'O') then
      radixFrom (fun c => 48 ≤ c.toNat ∧ c.toNat ≤ 55)
        (fun l => l.foldl (fun a c => 8 * a + decDigitVal c) 0) rest.tail
    else if c = '0' ∧ (rest.headD ' ' = 'b' ∨ rest.headD ' ' = 'B') then
      radixFrom (fun c => 48 ≤ c.toNat ∧ c.toNat ≤ 49)
        (fun l => l.foldl (fun a c => 2 * a + decDigitVal c) 0) rest.tail
    else if c = '+' then decimalFrom 1 rest
    else if c = '-' then decimalFrom (-1) rest
    else decimalFrom 1 t

/-! ### Data model -/

/-- The two address families (the `IPv4` / `IPv6` subclasses). -/
inductive Family
  | v4
  | v6
deriving DecidableEq

/-- The `Address` value: BigInt address, BigInt prefix length, plus the class
tag.  Mirrors the fields set by the JS constructor. -/
structure Address where
  family : Family
  address : ℤ
  prefixLength : ℤ
deriving DecidableEq

/-- The `totalBits` getter: `32n` for IPv4, `128n` for IPv6. -/
def totalBits : Family → ℤ
  | .v4 => 32
  | .v6 => 128

/-- The `prefixToMask(prefixLength, totalBits)` method.  The source also has
an initial `if (prefixLength === 0) return 0n` branch; since `prefixLength`
is a BigInt and `0` a Number there, that strict equality is always false, and
the general formula below yields `0` for `prefixLength = 0` anyway
(`fullMask XOR fullMask`). -/
def prefixToMask (prefixLength totalBits : ℤ) : ℤ :=
  if prefixLength = totalBits then ((1 : ℤ) <<< totalBits) - 1
  else Int.xor (((1 : ℤ) <<< totalBits) - 1)
    (((1 : ℤ) <<< (totalBits - prefixLength)) - 1)

/-- The `networkAddress` getter: `address & mask`, same prefix. -/
def networkAddress (a : Address) : Address :=
  ⟨a.family, Int.land a.address (prefixToMask a.prefixLength (totalBits a.family)),
    a.prefixLength⟩

/-- The `broadcastAddress` getter: the address itself for a host route, else
`address | (~mask & fullMask)`. -/
def broadcastAddress (a : Address) : Address :=
  if a.prefixLength = totalBits a.family then a
  else
    ⟨a.family,
      Int.lor a.address
        (Int.land (Int.lnot (prefixToMask a.prefixLength (totalBits a.family)))
          (prefixToMask (totalBits a.family) (totalBits a.family))),
      a.prefixLength⟩

/-- The `firstAddress` getter: the address itself for a host route, else
network + 1. -/
def firstAddress (a : Address) : Address :=
  if a.prefixLength = totalBits a.family then a
  else ⟨a.family, (networkAddress a).address + 1, a.prefixLength⟩

/-- The `lastAddress` getter: the address itself for a host route, else
broadcast − 1. -/
def lastAddress (a : Address) : Address :=
  if a.prefixLength = totalBits a.family then a
  else ⟨a.family, (broadcastAddress a).address - 1, a.prefixLength⟩

/-! ### IPv4 variant -/

/-- The `IPv4.toInteger` / `IPv4.toBigInt` method:
`ip.split('.').reduce((int, octet) => int * 256n + BigInt(octet), 0n)`.
No octet-count or range validation; `none` models the exception thrown by
`BigInt` on a non-numeric token. -/
def ipv4ToInteger (ip : List Char) : Option ℤ :=
  (splitOnChar '.' ip).foldl
    (fun acc octet => acc.bind (fun n => (jsStringToBigInt octet).map (fun o => n * 256 + o)))
    (some 0)

/-- The `IPv4.toString` method: the four bytes of the address, each masked to
8 bits after the shift, joined with dots.  (`Number` conversion is exact on
0–255.) -/
def ipv4ToStr (v : ℤ) : String :=
  String.intercalate "."
    [toString (Int.land (v >>> (24 : ℤ)) 255),
     toString (Int.land (v >>> (16 : ℤ)) 255),
     toString (Int.land (v >>> (8 : ℤ)) 255),
     toString (Int.land v 255)]

/-- Total wrapper for `IPv4.toBigInt` used to build the static type table;
every literal in that table converts, so the default is never reached. -/
def ipv4BigIntD (s : String) : ℤ := (ipv4ToInteger s.data).getD 0

/-- The `IPv4.TYPE_LIST` static table, with the dotted literals already
converted through `IPv4.toBigInt` as in the source. -/
def ipv4TypeList : List (String × ℤ × ℤ) :=
  [("Private", "10.0.0.0", "10.255.255.255"),
   ("Private", "172.16.0.0", "172.31.255.255"),
   ("Private", "192.168.0.0", "192.168.255.255"),
   ("Loopback", "127.0.0.0", "127.255.255.255"),
   ("Link-local", "169.254.0.0", "169.254.255.255"),
   ("Multicast", "224.0.0.0", "239.255.255.255"),
   ("Broadcast", "255.255.255.255", "255.255.255.255"),
   ("Shared Address Space", "100.64.0.0", "100.127.255.255"),
   ("Global Unicast", "0.0.0.0", "223.255.255.255")].map
    (fun r => (r.1, ipv4BigIntD r.2.1, ipv4BigIntD r.2.2))

/-- The base-class `type` getter: first table row with
`start <= address && end >= address`, else `"Unknown"`. -/
def typeFirstMatch : List (String × ℤ × ℤ) → ℤ → String
  | [], _ => "Unknown"
  | (t, s, e) :: rest, v => if s ≤ v ∧ e ≥ v then t else typeFirstMatch rest v

/-- `Address.type` as inherited by `IPv4` (keyed on the bare address value). -/
def ipv4Type (v : ℤ) : String := typeFirstMatch ipv4TypeList v

/-! ### IPv6 variant -/

/-- The `IPv6.expand` method as far as the list of eight hextet strings: split
on `'::'`, empty hextets on either side become `'0'`, and the gap is filled
with `'0'` groups.  The source then joins with `':'` and `toInteger` splits on
`':'` again; since no group contains a colon, working with the group list is
equivalent.  `none` models the `RangeError` thrown by
`Array(8 - head.length - tail.length)` when the group count exceeds eight. -/
def ipv6Expand (ip : List Char) : Option (List (List Char)) :=
  let parts := splitOnDoubleColon ip
  let head := (splitOnChar ':' (parts.headD [])).map (fun part => if part = [] then ['0'] else part)
  let tail :=
    if parts.tail.headD [] = [] then []
    else (splitOnChar ':' (parts.tail.headD [])).map (fun part => if part = [] then ['0'] else part)
  if 8 < head.length + tail.length then none
  else some (head ++ List.replicate (8 - head.length - tail.length) ['0'] ++ tail)

/-- The `IPv6.toInteger` / `IPv6.toBigInt` method: expand, then
`reduce((int, hextet) => int * 65536n + BigInt(parseInt(hextet, 16)), 0n)`;
`none` models `BigInt(NaN)` throwing on an unparseable hextet. -/
def ipv6ToInteger (ip : List Char) : Option ℤ :=
  (ipv6Expand ip).bind
    (fun groups => groups.foldl
      (fun acc hextet => acc.bind (fun n => (jsParseInt16 hextet).map (fun h => n * 65536 + h)))
      (some 0))

/-- Strip at most three leading `'0'` characters: the regex
`/^0\x7b1,3\x7d/` used by `IPv6.toString` and `IPv6.compact`. -/
def stripUpTo3Zeros : List Char → List Char
  | '0' :: '0' :: '0' :: r => r
  | '0' :: '0' :: r => r
  | '0' :: r => r
  | r => r

/-- BigInt `toString(16)`: lowercase hex digits, `-` sign for negatives. -/
def intToHexChars (v : ℤ) : List Char :=
  if v < 0 then '-' :: Nat.toDigits 16 (-v).toNat else Nat.toDigits 16 v.toNat

/-- JS `padStart(32, '0')`. -/
def padStart32 (l : List Char) : List Char := List.replicate (32 - l.length) '0' ++ l

/-- The `IPv6.toString` method, producing the eight hextet strings: hex form
padded to 32 digits, sliced in fours, each slice with up to three leading
zeros stripped (empty result becomes `'0'`). No `::` collapsing happens here. -/
def ipv6ToStrGroups (v : ℤ) : List (List Char) :=
  let hexString := padStart32 (intToHexChars v)
  (List.range 8).map (fun i =>
    let slice := (hexString.drop (4 * i)).take 4
    let r := stripUpTo3Zeros slice
    if r = [] then ['0'] else r)

/-- The `IPv6.toString` method: the eight groups joined with colons. -/
def ipv6ToStr (v : ℤ) : String :=
  String.mk (List.intercalate [':'] (ipv6ToStrGroups v))

/-- Zero-group runs of `IPv6.compact`: the maximal runs of indices whose part
is exactly `"0"`, in order. -/
def zeroGroups (parts : List (List Char)) : List (List ℕ) :=
  let step := fun (acc : List (List ℕ) × List ℕ × ℕ) (p : List Char) =>
    if p = ['0'] then (acc.1, acc.2.1 ++ [acc.2.2], acc.2.2 + 1)
    else if acc.2.1 ≠ [] then (acc.1 ++ [acc.2.1], [], acc.2.2 + 1)
    else (acc.1, [], acc.2.2 + 1)
  let fin := parts.foldl step ([], [], 0)
  if fin.2.1 ≠ [] then fin.1 ++ [fin.2.1] else fin.1

/-- The `reduce` picking the longest zero run (strict `>`, so the first
longest run wins), starting from `[]`. -/
def longestZeroGroup (parts : List (List Char)) : List ℕ :=
  (zeroGroups parts).foldl (fun longest g => if g.length > longest.length then g else longest) []

/-- JS `replace(/:\x7b2,\x7d/, '::')`: the first run of two or more colons is
replaced by exactly two. -/
def collapseFirstColonRun : List Char → List Char
  | ':' :: ':' :: rest => ':' :: ':' :: rest.dropWhile (fun c => c = ':')
  | c :: rest => c :: collapseFirstColonRun rest
  | [] => []

/-- The `IPv6.compact` method: starting from `toString`'s parts, splice the
longest zero run into a single empty part, strip leading zeros of each part
(with no fallback to `'0'` here), join, collapse the first colon run to `::`,
and double a trailing colon. -/
def ipv6Compact (v : ℤ) : String :=
  let parts := ipv6ToStrGroups v
  let lg := longestZeroGroup parts
  let spliced :=
    if lg.length > 0 then parts.take (lg.headD 0) ++ [[]] ++ parts.drop (lg.headD 0 + lg.length)
    else parts
  let stripped := spliced.map stripUpTo3Zeros
  let joined := collapseFirstColonRun (List.intercalate [':'] stripped)
  String.mk (if joined.getLast? = some ':' then joined ++ [':'] else joined)

/-- Total wrapper for `IPv6.toBigInt` used to build the static type table;
every literal in that table converts, so the default is never reached. -/
def ipv6BigIntD (s : String) : ℤ := (ipv6ToInteger s.data).getD 0

/-- The `IPv6.TYPE_LIST` static table, converted through `IPv6.toBigInt`. -/
def ipv6TypeList : List (String × ℤ × ℤ) :=
  [("NAT64", "64:ff9b::", "64:ff9b::ffff:ffff"),
   ("Global Unicast", "2000::", "3fff:ffff:ffff:ffff:ffff:ffff:ffff:ffff"),
   ("Link-local", "fe80::", "febf:ffff:ffff:ffff:ffff:ffff:ffff:ffff"),
   ("Unique Local", "fc00::", "fdff:ffff:ffff:ffff:ffff:ffff:ffff:ffff"),
   ("Multicast", "ff00::", "ffff:ffff:ffff:ffff:ffff:ffff:ffff:ffff"),
   ("Loopback", "::1", "::1"),
   ("Reserved", "::", "::"),
   ("Reserved", "::ffff:0:0", "::ffff:ffff:ffff"),
   ("Reserved", "4000::", "ffff:ffff:ffff:ffff:ffff:ffff:ffff:ffff")].map
    (fun r => (r.1, ipv6BigIntD r.2.1, ipv6BigIntD r.2.2))

/-- The overridden `IPv6.type` first-match loop: a row matches when
`networkAddress >= start && broadcastAddress <= end`. -/
def ipv6TypeFirstMatch : List (String × ℤ × ℤ) → ℤ → ℤ → String
  | [], _, _ => "Unknown"
  | (t, s, e) :: rest, n, b => if n ≥ s ∧ b ≤ e then t else ipv6TypeFirstMatch rest n b

/-- The `IPv6.type` getter: classification by the subnet's network and
broadcast boundaries. -/
def ipv6Type (a : Address) : String :=
  ipv6TypeFirstMatch ipv6TypeList (networkAddress a).address (broadcastAddress a).address

/-! ### NAT64, parsing, membership -/

/-- The module-level `nat64Prefix` singleton: `new IPv6('64:ff9b::', 96)`. -/
def nat64Pfx : Address := ⟨.v6, (ipv6ToInteger "64:ff9b::".data).getD 0, 96⟩

/-- The IPv6 address object built by `IPv4.nat64`:
`new IPv6(prefixObj.address + this.address, prefixObj.prefixLength)`. -/
def ipv4Nat64Addr (a pfx : Address) : Address :=
  ⟨.v6, pfx.address + a.address, pfx.prefixLength⟩

/-- The `IPv4.nat64(prefix)` method's return value:
the synthesized IPv6 address rendered through `IPv6.toString` (not
`compact`), suffixed with `/` and its prefix length. -/
def ipv4Nat64 (a pfx : Address) : String :=
  ipv6ToStr (ipv4Nat64Addr a pfx).address ++ "/" ++ toString (ipv4Nat64Addr a pfx).prefixLength

/-- The `IPv6.nat64(prefix)` method: `'Not applicable'` outside
`[prefix.address, prefix.broadcastAddress.address]`, else the difference
rendered through `IPv4.toString`. -/
def ipv6Nat64 (a pfx : Address) : String :=
  if a.address < pfx.address ∨ a.address > (broadcastAddress pfx).address then "Not applicable"
  else ipv4ToStr (a.address - pfx.address)

/-- The `parseIp` entry point: split on `/`, default prefix 64 (colon) or 24
(otherwise), `parseInt(..., 10)` for an explicit prefix (no range check; `NaN`
makes the constructor's `BigInt(prefixLength)` throw), then dispatch on `:` /
`.`; `none` models every thrown error. -/
def parseIp (input : String) : Option Address :=
  let parts := splitOnChar '/' input.data
  let ip := parts.headD []
  let prefixStr := parts.tail.headD []
  let prefixLengthOpt : Option ℤ :=
    if prefixStr = [] then some (if ip.contains ':' then 64 else 24)
    else jsParseInt10 prefixStr
  prefixLengthOpt.bind (fun prefixLength =>
    if ip.contains ':' then (ipv6ToInteger ip).map (fun v => ⟨.v6, v, prefixLength⟩)
    else if ip.contains '.' then (ipv4ToInteger ip).map (fun v => ⟨.v4, v, prefixLength⟩)
    else none)

/-- The subnet-membership check of `handleCheckIp` (after both parses have
succeeded): `none` models the "IP version mismatch" result when the two
constructors differ, otherwise the containment Boolean
`test.address >= subnet.networkAddress.address && test.address <= subnet.broadcastAddress.address`. -/
def handleCheckIp (subnet test : Address) : Option Bool :=
  if subnet.family ≠ test.family then none
  else
    some (decide ((networkAddress subnet).address ≤ test.address ∧
      test.address ≤ (broadcastAddress subnet).address))

/-! ### Bridging lemmas between the `ℤ` bitwise operators and `ℕ` -/

/-- Bitwise and of two nonnegative integers is the natural-number and. -/
theorem intCast_land (m n : ℕ) : Int.land (m : ℤ) (n : ℤ) = ((m &&& n : ℕ) : ℤ) := rfl

/-- Bitwise or of two nonnegative integers is the natural-number or. -/
theorem intCast_lor (m n : ℕ) : Int.lor (m : ℤ) (n : ℤ) = ((m ||| n : ℕ) : ℤ) := rfl

/-- Bitwise xor of two nonnegative integers is the natural-number xor. -/
theorem intCast_xor (m n : ℕ) : Int.xor (m : ℤ) (n : ℤ) = ((m ^^^ n : ℕ) : ℤ) := rfl

/-- Masking a complement against a nonnegative integer gives `Nat.ldiff`. -/
theorem int_lnot_land (m n : ℕ) :
    Int.land (Int.lnot (m : ℤ)) (n : ℤ) = ((Nat.ldiff n m : ℕ) : ℤ) := rfl

/-- `Nat.ldiff` as an xor with the common bits; the kernel can evaluate the
right-hand side, which it cannot do for `Nat.ldiff` itself. -/
theorem ldiff_as_xor (f m : ℕ) : Nat.ldiff f m = f ^^^ (f &&& m) := by
  apply Nat.eq_of_testBit_eq
  intro i
  rw [Nat.testBit_ldiff, Nat.testBit_xor, Nat.testBit_and]
  cases f.testBit i <;> cases m.testBit i <;> rfl

/-- Complement-and in kernel-computable form. -/
theorem int_lnot_land_xor (m n : ℕ) :
    Int.land (Int.lnot (m : ℤ)) (n : ℤ) = ((n ^^^ (n &&& m) : ℕ) : ℤ) := by
  rw [int_lnot_land, ldiff_as_xor]

/-- A natural number is bounded by its or with anything. -/
theorem nat_le_or_left (a b : ℕ) : a ≤ a ||| b :=
  Nat.le_of_testBit fun i h => by rw [Nat.testBit_or, h, Bool.true_or]

/-- One shifted left by a natural amount, on `ℤ`. -/
theorem int_one_shl (k : ℕ) : (1 : ℤ) <<< (k : ℤ) = ((2 ^ k : ℕ) : ℤ) := by
  show ((Nat.shiftLeft' false 1 k : ℕ) : ℤ) = ((2 ^ k : ℕ) : ℤ)
  rw [Nat.shiftLeft'_false, Nat.one_shiftLeft]

/-- The full mask: `prefixToMask(totalBits, totalBits)` is `2 ^ totalBits − 1`. -/
theorem prefixToMask_full (bn : ℕ) :
    prefixToMask (bn : ℤ) (bn : ℤ) = ((2 ^ bn - 1 : ℕ) : ℤ) := by
  rw [prefixToMask, if_pos rfl, int_one_shl]
  have h1 : (1 : ℕ) ≤ 2 ^ bn := Nat.one_le_two_pow
  push_cast [h1]
  ring

/-- The general mask as a natural number, for a prefix length strictly inside
`[0, totalBits)`. -/
theorem prefixToMask_eq (pn bn : ℕ) (hle : pn ≤ bn) (hne : pn ≠ bn) :
    prefixToMask (pn : ℤ) (bn : ℤ) = (((2 ^ bn - 1) ^^^ (2 ^ (bn - pn) - 1) : ℕ) : ℤ) := by
  rw [prefixToMask, if_neg (by exact_mod_cast hne)]
  have hsub : (bn : ℤ) - (pn : ℤ) = ((bn - pn : ℕ) : ℤ) := by
    push_cast [hle]
    ring
  rw [hsub, int_one_shl, int_one_shl]
  have h1 : (1 : ℕ) ≤ 2 ^ bn := Nat.one_le_two_pow
  have h2 : (1 : ℕ) ≤ 2 ^ (bn - pn) := Nat.one_le_two_pow
  rw [show ((2 ^ bn : ℕ) : ℤ) - 1 = ((2 ^ bn - 1 : ℕ) : ℤ) by push_cast [h1]; ring,
    show ((2 ^ (bn - pn) : ℕ) : ℤ) - 1 = ((2 ^ (bn - pn) - 1 : ℕ) : ℤ) by push_cast [h2]; ring,
    intCast_xor]

/-- The mask is the cast of some natural number whenever the prefix length is
in range. -/
theorem prefixToMask_cast (pn bn : ℕ) (hle : pn ≤ bn) :
    ∃ mn : ℕ, prefixToMask (pn : ℤ) (bn : ℤ) = (mn : ℤ) := by
  by_cases he : pn = bn
  · subst he
    exact ⟨2 ^ pn - 1, prefixToMask_full pn⟩
  · exact ⟨_, prefixToMask_eq pn bn hle he⟩

/-- The `totalBits` value is a natural number (32 or 128). -/
theorem totalBits_cast (fam : Family) : ∃ bn : ℕ, totalBits fam = (bn : ℤ) := by
  cases fam
  · exact ⟨32, by norm_num [totalBits]⟩
  · exact ⟨128, by norm_num [totalBits]⟩

/-- The broadcast address in kernel-computable form: once the two masks are
given as natural-number casts, the host part is an xor instead of a
complement-and. -/
theorem broadcastAddress_eq (a : Address) (h : ¬a.prefixLength = totalBits a.family)
    (mn fn : ℕ) (hm : prefixToMask a.prefixLength (totalBits a.family) = (mn : ℤ))
    (hf : prefixToMask (totalBits a.family) (totalBits a.family) = (fn : ℤ)) :
    broadcastAddress a =
      ⟨a.family, Int.lor a.address ((fn ^^^ (fn &&& mn) : ℕ) : ℤ), a.prefixLength⟩ := by
  rw [broadcastAddress, if_neg h, hm, hf, int_lnot_land_xor]

/-! ### C7: network ≤ address ≤ broadcast -/

/-- C7: for every address whose `prefixLength` lies in `[0, totalBits]` (and
whose value is nonnegative, as for every parsed address), the derived network
and broadcast addresses bracket the address itself. -/
theorem networkAddress_le_address_le_broadcastAddress (a : Address)
    (h0 : 0 ≤ a.address) (hp0 : 0 ≤ a.prefixLength)
    (hpb : a.prefixLength ≤ totalBits a.family) :
    (networkAddress a).address ≤ a.address ∧ a.address ≤ (broadcastAddress a).address := by
  obtain ⟨bn, hbn⟩ := totalBits_cast a.family
  obtain ⟨vn, hv⟩ := Int.eq_ofNat_of_zero_le h0
  obtain ⟨pn, hp⟩ := Int.eq_ofNat_of_zero_le hp0
  have hple : pn ≤ bn := by
    rw [hp, hbn] at hpb
    exact_mod_cast hpb
  obtain ⟨mn, hm⟩ : ∃ mn : ℕ, prefixToMask a.prefixLength (totalBits a.family) = (mn : ℤ) := by
    rw [hp, hbn]
    exact prefixToMask_cast pn bn hple
  constructor
  · show Int.land a.address (prefixToMask a.prefixLength (totalBits a.family)) ≤ a.address
    rw [hm, hv, intCast_land]
    exact_mod_cast Nat.and_le_left
  · by_cases hpe : a.prefixLength = totalBits a.family
    · rw [broadcastAddress, if_pos hpe]
    · rw [broadcastAddress_eq a hpe mn (2 ^ bn - 1) hm (by rw [hbn]; exact prefixToMask_full bn)]
      show a.address ≤ Int.lor a.address _
      rw [hv, intCast_lor]
      exact_mod_cast nat_le_or_left vn _

/-- Witness for C7 at `192.168.1.10/24`. -/
theorem networkAddress_le_address_le_broadcastAddress_witness :
    (networkAddress ⟨.v4, 3232235786, 24⟩).address ≤ (3232235786 : ℤ) ∧
      (3232235786 : ℤ) ≤ (broadcastAddress ⟨.v4, 3232235786, 24⟩).address :=
  networkAddress_le_address_le_broadcastAddress ⟨.v4, 3232235786, 24⟩
    (by decide) (by decide) (by decide)

/-! ### C8: host routes collapse -/

/-- C8: when `prefixLength = totalBits` (a `/32` or `/128` host route) and the
address value fits in `totalBits` bits, network, broadcast, first and last
address all equal the address itself. -/
theorem host_route_collapses_to_self (a : Address)
    (hp : a.prefixLength = totalBits a.family) (h0 : 0 ≤ a.address)
    (hlt : a.address < (2 : ℤ) ^ (totalBits a.family).toNat) :
    networkAddress a = a ∧ broadcastAddress a = a ∧ firstAddress a = a ∧ lastAddress a = a := by
  obtain ⟨bn, hbn⟩ := totalBits_cast a.family
  obtain ⟨vn, hv⟩ := Int.eq_ofNat_of_zero_le h0
  have hvlt : vn < 2 ^ bn := by
    rw [hv, hbn] at hlt
    rw [Int.toNat_natCast] at hlt
    exact_mod_cast hlt
  refine ⟨?_, by rw [broadcastAddress, if_pos hp], by rw [firstAddress, if_pos hp],
    by rw [lastAddress, if_pos hp]⟩
  have hland : Int.land a.address (prefixToMask a.prefixLength (totalBits a.family)) = a.address := by
    rw [hp, hbn, prefixToMask_full, hv, intCast_land]
    exact_mod_cast by rw [Nat.and_pow_two_sub_one_eq_mod]; exact Nat.mod_eq_of_lt hvlt
  rw [networkAddress, hland]

/-- Witness for C8 at `203.0.113.5/32`. -/
theorem host_route_collapses_to_self_witness :
    networkAddress ⟨.v4, 3405803781, 32⟩ = ⟨.v4, 3405803781, 32⟩ ∧
      broadcastAddress ⟨.v4, 3405803781, 32⟩ = ⟨.v4, 3405803781, 32⟩ ∧
      firstAddress ⟨.v4, 3405803781, 32⟩ = ⟨.v4, 3405803781, 32⟩ ∧
      lastAddress ⟨.v4, 3405803781, 32⟩ = ⟨.v4, 3405803781, 32⟩ :=
  host_route_collapses_to_self ⟨.v4, 3405803781, 32⟩ (by decide) (by decide) (by decide)

/-! ### C5: subnet membership contract -/

/-- C5: the membership check reports a family mismatch exactly when the two
addresses belong to different families, and otherwise answers `true` exactly
when the candidate value lies between the subnet's network and broadcast
values. -/
theorem handleCheckIp_contract (s c : Address) :
    (handleCheckIp s c = none ↔ s.family ≠ c.family) ∧
    (s.family = c.family →
      (handleCheckIp s c = some true ↔
        ((networkAddress s).address ≤ c.address ∧ c.address ≤ (broadcastAddress s).address))) := by
  by_cases h : s.family = c.family
  · rw [handleCheckIp, if_neg (not_not_intro h)]
    refine ⟨by simp [h], fun _ => ?_⟩
    simp
  · rw [handleCheckIp, if_pos h]
    exact ⟨by simp [h], fun hc => absurd hc h⟩

/-- Witness for C5: a host route contains itself. -/
theorem handleCheckIp_contract_witness :
    handleCheckIp ⟨.v4, 5, 32⟩ ⟨.v4, 5, 32⟩ = some true :=
  ((handleCheckIp_contract ⟨.v4, 5, 32⟩ ⟨.v4, 5, 32⟩).2 rfl).mpr (by decide)

/-! ### C4: type classification is not total -/

/-- Numeric evaluation of the IPv4 type table. -/
theorem ipv4TypeList_eval :
    ipv4TypeList =
      [("Private", 167772160, 184549375),
       ("Private", 2886729728, 2887778303),
       ("Private", 3232235520, 3232301055),
       ("Loopback", 2130706432, 2147483647),
       ("Link-local", 2851995648, 2852061183),
       ("Multicast", 3758096384, 4026531839),
       ("Broadcast", 4294967295, 4294967295),
       ("Shared Address Space", 1681915904, 1686110207),
       ("Global Unicast", 0, 3758096383)] := by decide

/-- C4 counterexample: the IPv4 value `240.0.0.0` matches no row of the type
table (the Global Unicast catch-all stops at `223.255.255.255`), so the type
getter returns `"Unknown"`. -/
theorem typeClassification_counterexample : ipv4Type 4026531840 = "Unknown" := by decide

/-- C4 amended: classification is not total.  An IPv4 value in the 32-bit
space is `"Unknown"` exactly when it lies in `240.0.0.0`–`255.255.255.254`,
and the IPv6 classifier also returns `"Unknown"` (for example on `::2/64`,
whose subnet boundaries fit no row). -/
theorem typeClassification_not_total :
    (∀ v : ℤ, 0 ≤ v → v < 2 ^ 32 →
      (ipv4Type v = "Unknown" ↔ 4026531840 ≤ v ∧ v ≤ 4294967294)) ∧
    ipv6Type ⟨.v6, 2, 64⟩ = "Unknown" := by
  constructor
  · intro v h0 hlt
    rw [ipv4Type, ipv4TypeList_eval]
    simp only [typeFirstMatch]
    split_ifs with h1 h2 h3 h4 h5 h6 h7 h8 h9 <;>
      first
        | exact iff_of_false (by decide) (by omega)
        | exact iff_of_true rfl (by omega)
  · have hb := broadcastAddress_eq ⟨.v6, 2, 64⟩ (by decide)
      0xffffffffffffffff0000000000000000 0xffffffffffffffffffffffffffffffff
      (by decide) (by decide)
    rw [ipv6Type, hb]
    decide

/-- Witness for C4's amended universal part at `240.0.0.1`. -/
theorem typeClassification_not_total_witness :
    ipv4Type 4026531841 = "Unknown" ↔
      (4026531840 : ℤ) ≤ 4026531841 ∧ (4026531841 : ℤ) ≤ 4294967294 :=
  typeClassification_not_total.1 4026531841 (by decide) (by decide)

/-! ### C1: natTranslate output string -/

/-- C1 counterexample: `natTranslate(parse("192.0.2.1/32"), parse("64:ff9b::/96"))`
does not return `64:ff9b::c000:201`; `IPv4.nat64` renders through
`IPv6.toString`, which never collapses zero runs, and appends `/96`. -/
theorem natTranslate_counterexample :
    (parseIp "192.0.2.1/32").bind
        (fun a => (parseIp "64:ff9b::/96").map (fun p => ipv4Nat64 a p)) =
      some "64:ff9b:0:0:0:0:c000:201/96" ∧
    some "64:ff9b:0:0:0:0:c000:201/96" ≠ some "64:ff9b::c000:201" := by
  constructor
  · decide
  · decide

/-- C1 amended: `natTranslate` on those inputs returns
`64:ff9b:0:0:0:0:c000:201/96`; the separate `IPv6.compact` method applied to
the synthesized address does produce `64:ff9b::c000:201`. -/
theorem natTranslate_uncompacted :
    (parseIp "192.0.2.1/32").bind
        (fun a => (parseIp "64:ff9b::/96").map (fun p => ipv4Nat64 a p)) =
      some "64:ff9b:0:0:0:0:c000:201/96" ∧
    (parseIp "192.0.2.1/32").bind
        (fun a => (parseIp "64:ff9b::/96").map
          (fun p => ipv6Compact (ipv4Nat64Addr a p).address)) =
      some "64:ff9b::c000:201" := by
  constructor
  · decide
  · decide

/-! ### C6: NAT64 round trip -/

/-- C6: synthesizing an IPv6 address from an IPv4 value `a` under the default
`64:ff9b::/96` prefix and extracting again recovers exactly `a` (rendered by
`IPv4.toString`; the guard never fires because the prefix's broadcast is its
address plus `2^32 − 1`). -/
theorem nat64_round_trip (a : ℤ) (h0 : 0 ≤ a) (hlt : a < 2 ^ 32) :
    ipv6Nat64 (ipv4Nat64Addr ⟨.v4, a, 32⟩ nat64Pfx) nat64Pfx = ipv4ToStr a := by
  have hb : (broadcastAddress nat64Pfx).address = nat64Pfx.address + 4294967295 := by
    rw [broadcastAddress_eq nat64Pfx (by decide) 0xffffffffffffffffffffffff00000000
      0xffffffffffffffffffffffffffffffff (by decide) (by decide)]
    decide
  simp only [ipv6Nat64, ipv4Nat64Addr]
  rw [hb]
  generalize nat64Pfx.address = P
  rw [if_neg (by omega)]
  congr 1
  ring

/-- Witness for C6 at `192.0.2.1`. -/
theorem nat64_round_trip_witness :
    ipv6Nat64 (ipv4Nat64Addr ⟨.v4, 3221225985, 32⟩ nat64Pfx) nat64Pfx = "192.0.2.1" :=
  (nat64_round_trip 3221225985 (by decide) (by decide)).trans (by decide)

/-! ### C10: IPv4 rendering reduces modulo 2^32 -/

/-- An octet extracted after reduction mod `2^32` is unchanged, for shift
amounts that keep the byte inside the low 32 bits. -/
theorem octet_mod (x k : ℕ) (hk : k + 8 ≤ 32) :
    ((x % 2 ^ 32) >>> k) &&& 255 = (x >>> k) &&& 255 := by
  apply Nat.eq_of_testBit_eq
  intro i
  simp only [Nat.testBit_and, Nat.testBit_shiftRight, Nat.testBit_mod_two_pow]
  by_cases hi : i < 8
  · have hki : k + i < 32 := by omega
    simp [hki]
  · have h255 : (255 : ℕ).testBit i = false := by
      rw [show (255 : ℕ) = 2 ^ 8 - 1 from rfl, Nat.testBit_two_pow_sub_one]
      exact decide_eq_false_iff_not.mpr hi
    simp [h255]

/-- The high octet of a nonnegative value, at the natural-number level. -/
theorem int_octet24 (y : ℕ) :
    Int.land ((y : ℤ) >>> (24 : ℤ)) 255 = (((y >>> 24) &&& 255 : ℕ) : ℤ) := rfl

/-- The second octet of a nonnegative value, at the natural-number level. -/
theorem int_octet16 (y : ℕ) :
    Int.land ((y : ℤ) >>> (16 : ℤ)) 255 = (((y >>> 16) &&& 255 : ℕ) : ℤ) := rfl

/-- The third octet of a nonnegative value, at the natural-number level. -/
theorem int_octet8 (y : ℕ) :
    Int.land ((y : ℤ) >>> (8 : ℤ)) 255 = (((y >>> 8) &&& 255 : ℕ) : ℤ) := rfl

/-- The low octet of a nonnegative value, at the natural-number level. -/
theorem int_octet0 (y : ℕ) : Int.land (y : ℤ) 255 = ((y &&& 255 : ℕ) : ℤ) := rfl

/-- C10: `IPv4.toString` renders any nonnegative value exactly as it renders
the value reduced mod `2^32` (each octet is masked to 8 bits), and therefore
`IPv6.nat64` extraction renders the low 32 bits of `value − prefix.value`
whenever the range guard passes, even when the difference is at least `2^32`. -/
theorem ipv4ToStr_mod_two_pow_32 :
    (∀ v : ℤ, 0 ≤ v → ipv4ToStr v = ipv4ToStr (v % 2 ^ 32)) ∧
    (∀ a pfx : Address,
      ¬(a.address < pfx.address ∨ a.address > (broadcastAddress pfx).address) →
      ipv6Nat64 a pfx = ipv4ToStr ((a.address - pfx.address) % 2 ^ 32)) := by
  have main : ∀ v : ℤ, 0 ≤ v → ipv4ToStr v = ipv4ToStr (v % 2 ^ 32) := by
    intro v h0
    obtain ⟨vn, rfl⟩ := Int.eq_ofNat_of_zero_le h0
    have hmod : (vn : ℤ) % 2 ^ 32 = ((vn % 2 ^ 32 : ℕ) : ℤ) := by push_cast; ring
    rw [hmod]
    simp only [ipv4ToStr]
    rw [int_octet24, int_octet24, int_octet16, int_octet16, int_octet8, int_octet8,
      int_octet0, int_octet0, octet_mod vn 24 (by omega), octet_mod vn 16 (by omega),
      octet_mod vn 8 (by omega),
      show (vn % 2 ^ 32) &&& 255 = vn &&& 255 by simpa using octet_mod vn 0 (by omega)]
  refine ⟨main, fun a pfx h => ?_⟩
  rw [ipv6Nat64, if_neg h]
  have hsub : 0 ≤ a.address - pfx.address := by
    push_neg at h
    linarith [h.1]
  exact main _ hsub

/-- Witness for C10: a value past `2^32` renders as its low 32 bits. -/
theorem ipv4ToStr_mod_two_pow_32_witness : ipv4ToStr ((2 : ℤ) ^ 32 + 5) = "0.0.0.5" := by
  have h := ipv4ToStr_mod_two_pow_32.1 (2 ^ 32 + 5) (by decide)
  rw [h]
  decide

/-! ### Character-class facts used by the parsing lemmas -/

/-- A decimal digit is not JS whitespace. -/
theorem decDigit_not_ws {c : Char} (h : isDecDigit c = true) : isJsWs c = false := by
  simp only [isDecDigit, decide_eq_true_eq] at h
  simp only [isJsWs]
  rw [decide_eq_false_iff_not]
  omega

/-- A hexadecimal digit is not JS whitespace. -/
theorem hexDigit_not_ws {c : Char} (h : isHexDigit c = true) : isJsWs c = false := by
  simp only [isHexDigit, decide_eq_true_eq] at h
  simp only [isJsWs]
  rw [decide_eq_false_iff_not]
  omega

/-- Dropping while `p` holds changes nothing when every element satisfies `q`
and `q` rules `p` out. -/
theorem dropWhile_eq_self_of_all {q p : Char → Bool} (l : List Char)
    (hall : l.all q = true) (himp : ∀ c, q c = true → p c = false) :
    l.dropWhile p = l := by
  cases l with
  | nil => rfl
  | cons c cs =>
    simp only [List.all_cons, Bool.and_eq_true] at hall
    rw [List.dropWhile_cons, himp c hall.1]
    simp

/-- Taking while `p` holds keeps everything when every element satisfies `q`
and `q` implies `p`. -/
theorem takeWhile_eq_self_of_all {q p : Char → Bool} (l : List Char)
    (hall : l.all q = true) (himp : ∀ c, q c = true → p c = true) :
    l.takeWhile p = l := by
  induction l with
  | nil => rfl
  | cons c cs ih =>
    simp only [List.all_cons, Bool.and_eq_true] at hall
    rw [List.takeWhile_cons, himp c hall.1]
    simp only [if_true]
    rw [ih hall.2]

/-- Trimming changes nothing on a string of decimal digits. -/
theorem jsTrim_digits (l : List Char) (hall : l.all (fun c => isDecDigit c) = true) :
    jsTrim l = l := by
  rw [jsTrim, dropWhile_eq_self_of_all l hall (fun c h => decDigit_not_ws h),
    dropWhile_eq_self_of_all l.reverse (by simpa using hall) (fun c h => decDigit_not_ws h),
    List.reverse_reverse]

/-- The default head of a list of decimal digits is a space or a digit. -/
theorem headD_of_all_digits (cs : List Char) (hall : cs.all (fun c => isDecDigit c) = true) :
    (cs.headD ' ').toNat = 32 ∨ (48 ≤ (cs.headD ' ').toNat ∧ (cs.headD ' ').toNat ≤ 57) := by
  cases cs with
  | nil => left; rfl
  | cons c cs2 =>
    simp only [List.all_cons, Bool.and_eq_true] at hall
    have h := hall.1
    simp only [isDecDigit, decide_eq_true_eq] at h
    right
    exact h

/-- The default head of a list of hexadecimal digits is a space or a hex
digit code point. -/
theorem headD_of_all_hex (cs : List Char) (hall : cs.all (fun c => isHexDigit c) = true) :
    (cs.headD ' ').toNat = 32 ∨ (48 ≤ (cs.headD ' ').toNat ∧ (cs.headD ' ').toNat ≤ 57) ∨
      (97 ≤ (cs.headD ' ').toNat ∧ (cs.headD ' ').toNat ≤ 102) ∨
      (65 ≤ (cs.headD ' ').toNat ∧ (cs.headD ' ').toNat ≤ 70) := by
  cases cs with
  | nil => left; rfl
  | cons c cs2 =>
    simp only [List.all_cons, Bool.and_eq_true] at hall
    have h := hall.1
    simp only [isHexDigit, decide_eq_true_eq] at h
    right
    exact h

/-- The tail of a list of digits is a list of digits. -/
theorem all_tail {p : Char → Bool} (l : List Char) (hall : l.all p = true) :
    l.tail.all p = true := by
  cases l with
  | nil => exact hall
  | cons c cs =>
    simp only [List.all_cons, Bool.and_eq_true] at hall
    exact hall.2

/-- `BigInt(octet)` on a nonempty all-digit token is its decimal value. -/
theorem jsStringToBigInt_digits (t : List Char) (hne : t ≠ [])
    (hd : t.all (fun c => isDecDigit c) = true) :
    jsStringToBigInt t = some ((decValue t : ℕ) : ℤ) := by
  have htrim : jsTrim t = t := jsTrim_digits t hd
  obtain ⟨c, cs, rfl⟩ : ∃ c cs, t = c :: cs := by
    cases t with
    | nil => exact absurd rfl hne
    | cons c cs => exact ⟨c, cs, rfl⟩
  have hall := hd
  simp only [List.all_cons, Bool.and_eq_true] at hall
  have hc : 48 ≤ c.toNat ∧ c.toNat ≤ 57 := by
    simpa [isDecDigit] using hall.1
  have htailhead := headD_of_all_digits cs hall.2
  have hxX : ¬(c = '0' ∧ (cs.headD ' ' = 'x' ∨ cs.headD ' ' = 'X')) := by
    rintro ⟨-, h | h⟩ <;> rw [h] at htailhead <;> exact absurd htailhead (by decide)
  have hoO : ¬(c = '0' ∧ (cs.headD ' ' = 'o' ∨ cs.headD ' ' = 'O')) := by
    rintro ⟨-, h | h⟩ <;> rw [h] at htailhead <;> exact absurd htailhead (by decide)
  have hbB : ¬(c = '0' ∧ (cs.headD ' ' = 'b' ∨ cs.headD ' ' = 'B')) := by
    rintro ⟨-, h | h⟩ <;> rw [h] at htailhead <;> exact absurd htailhead (by decide)
  have hplus : ¬(c = '+') := by
    intro h
    rw [h] at hc
    exact absurd hc (by decide)
  have hminus : ¬(c = '-') := by
    intro h
    rw [h] at hc
    exact absurd hc (by decide)
  simp only [jsStringToBigInt]
  rw [htrim, if_neg hne]
  simp only [List.headD_cons, List.tail_cons]
  rw [if_neg hxX, if_neg hoO, if_neg hbB, if_neg hplus, if_neg hminus, if_pos ⟨hne, hd⟩,
    one_mul]

/-- `parseInt(hextet, 16)` on a nonempty all-hex token is its hex value. -/
theorem jsParseInt16_hex (t : List Char) (hne : t ≠ [])
    (hd : t.all (fun c => isHexDigit c) = true) :
    jsParseInt16 t = some ((hexValue t : ℕ) : ℤ) := by
  have hdrop : t.dropWhile (fun c => isJsWs c) = t :=
    dropWhile_eq_self_of_all t hd (fun c h => hexDigit_not_ws h)
  obtain ⟨c, cs, rfl⟩ : ∃ c cs, t = c :: cs := by
    cases t with
    | nil => exact absurd rfl hne
    | cons c cs => exact ⟨c, cs, rfl⟩
  have hall := hd
  simp only [List.all_cons, Bool.and_eq_true] at hall
  have hc : (48 ≤ c.toNat ∧ c.toNat ≤ 57) ∨ (97 ≤ c.toNat ∧ c.toNat ≤ 102) ∨
      (65 ≤ c.toNat ∧ c.toNat ≤ 70) := by
    simpa [isHexDigit] using hall.1
  have htailhead := headD_of_all_hex cs hall.2
  have hminus : ¬(c = '-') := by
    intro h
    rw [h] at hc
    exact absurd hc (by decide)
  have hpm : ¬(c = '+' ∨ c = '-') := by
    rintro (h | h) <;> rw [h] at hc <;> exact absurd hc (by decide)
  have htake : (c :: cs).takeWhile (fun c => isHexDigit c) = c :: cs :=
    takeWhile_eq_self_of_all (c :: cs) hd (fun _ h => h)
  simp only [jsParseInt16]
  rw [hdrop]
  simp only [List.headD_cons, List.tail_cons]
  rw [if_neg hminus, if_neg hpm]
  simp only [List.headD_cons, List.tail_cons]
  have hxX : ¬(c = '0' ∧ (cs.headD ' ' = 'x' ∨ cs.headD ' ' = 'X')) := by
    rintro ⟨-, h | h⟩ <;> rw [h] at htailhead <;> exact absurd htailhead (by decide)
  rw [if_neg hxX, htake, if_neg hne, one_mul]

/-- The octet fold of `IPv4.toInteger` never fails on all-digit tokens and
computes the base-256 accumulation. -/
theorem ipv4_fold_digits (toks : List (List Char)) (acc : ℤ)
    (h : ∀ t ∈ toks, t ≠ [] ∧ t.all (fun c => isDecDigit c) = true) :
    toks.foldl
        (fun a octet => a.bind (fun n => (jsStringToBigInt octet).map (fun o => n * 256 + o)))
        (some acc) =
      some (toks.foldl (fun n t => n * 256 + (decValue t : ℤ)) acc) := by
  induction toks generalizing acc with
  | nil => rfl
  | cons t ts ih =>
    simp only [List.foldl_cons]
    rw [show (some acc).bind (fun n => (jsStringToBigInt t).map (fun o => n * 256 + o)) =
        some (acc * 256 + (decValue t : ℤ)) by
      rw [Option.some_bind, jsStringToBigInt_digits t (h t (List.mem_cons_self t ts)).1
        (h t (List.mem_cons_self t ts)).2, Option.map_some']]
    exact ih _ (fun x hx => h x (List.mem_cons_of_mem _ hx))

/-- The hextet fold of `IPv6.toInteger` never fails on all-hex groups and
computes the base-65536 accumulation. -/
theorem ipv6_fold_hex (groups : List (List Char)) (acc : ℤ)
    (h : ∀ g ∈ groups, g ≠ [] ∧ g.all (fun c => isHexDigit c) = true) :
    groups.foldl
        (fun a hextet => a.bind (fun n => (jsParseInt16 hextet).map (fun x => n * 65536 + x)))
        (some acc) =
      some (groups.foldl (fun n g => n * 65536 + (hexValue g : ℤ)) acc) := by
  induction groups generalizing acc with
  | nil => rfl
  | cons g gs ih =>
    simp only [List.foldl_cons]
    rw [show (some acc).bind (fun n => (jsParseInt16 g).map (fun x => n * 65536 + x)) =
        some (acc * 65536 + (hexValue g : ℤ)) by
      rw [Option.some_bind, jsParseInt16_hex g (h g (List.mem_cons_self g gs)).1
        (h g (List.mem_cons_self g gs)).2, Option.map_some']]
    exact ih _ (fun x hx => h x (List.mem_cons_of_mem _ hx))

/-! ### C2: the prefix length is not validated -/

/-- C2 counterexample: `1.2.3.4/33` has a prefix outside `[0, 32]`, yet
`parseIp` succeeds and stores 33, instead of returning any error. -/
theorem parseIp_accepts_out_of_range_prefix :
    parseIp "1.2.3.4/33" = some ⟨.v4, 16909060, 33⟩ := by decide

/-- C2 amended: `parseIp` applies no range check at all to the prefix: any
suffix whose `parseInt(…, 10)` is an integer `n` — negative or beyond
`totalBits` included — produces an address with `prefixLength = n`, and a
suffix with no leading integer makes the whole parse fail (a generic
`RangeError` from `BigInt(NaN)` in the constructor, not a dedicated
`PrefixOutOfRange` error). -/
theorem parseIp_no_prefix_validation (input : String) (lit pstr : List Char)
    (rest : List (List Char)) (hsplit : splitOnChar '/' input.data = lit :: pstr :: rest)
    (hne : pstr ≠ []) :
    (∀ n : ℤ, jsParseInt10 pstr = some n →
      parseIp input =
        (if lit.contains ':' then (ipv6ToInteger lit).map (fun v => ⟨.v6, v, n⟩)
         else if lit.contains '.' then (ipv4ToInteger lit).map (fun v => ⟨.v4, v, n⟩)
         else none)) ∧
    (jsParseInt10 pstr = none → parseIp input = none) := by
  constructor
  · intro n hn
    simp only [parseIp]
    rw [hsplit]
    simp only [List.headD_cons, List.tail_cons]
    rw [if_neg hne, hn, Option.some_bind]
  · intro hn
    simp only [parseIp]
    rw [hsplit]
    simp only [List.headD_cons, List.tail_cons]
    rw [if_neg hne, hn, Option.none_bind]

/-- Witness for C2 at `1.2.3.4/99`. -/
theorem parseIp_no_prefix_validation_witness :
    parseIp "1.2.3.4/99" = some ⟨.v4, 16909060, 99⟩ := by
  have h := (parseIp_no_prefix_validation "1.2.3.4/99" "1.2.3.4".data "99".data []
    (by decide) (by decide)).1 99 (by decide)
  rw [h]
  decide

/-! ### C3: octets are not validated -/

/-- C3 counterexample: the octet 256 is out of range, yet parsing succeeds
(with a value that does not even fit in 32 bits). -/
theorem parseIp_accepts_out_of_range_octet :
    parseIp "256.0.0.0" = some ⟨.v4, 4294967296, 24⟩ := by decide

/-- C3 amended: IPv4 parsing checks neither the octet range nor the octet
count: whenever every `.`-separated token is a nonempty digit string, parsing
succeeds — for any number of tokens and any token values — with the base-256
accumulation of the token values; only a token rejected by `BigInt(string)`
makes parsing fail (with a generic `SyntaxError`). -/
theorem parseIp_ipv4_no_octet_validation (input : String) (toks : List (List Char))
    (hslash : splitOnChar '/' input.data = [input.data])
    (hcolon : input.data.contains ':' = false)
    (hdot : input.data.contains '.' = true)
    (hsplit : splitOnChar '.' input.data = toks)
    (hdigits : ∀ t ∈ toks, t ≠ [] ∧ t.all (fun c => isDecDigit c) = true) :
    parseIp input = some ⟨.v4, toks.foldl (fun n t => n * 256 + (decValue t : ℤ)) 0, 24⟩ := by
  simp only [parseIp]
  rw [hslash]
  simp only [List.headD_cons, List.tail_cons, List.headD_nil]
  rw [if_pos trivial]
  simp only [hcolon, hdot, Bool.false_eq_true, if_false, if_true, Option.some_bind]
  rw [show ipv4ToInteger input.data =
      some (toks.foldl (fun n t => n * 256 + (decValue t : ℤ)) 0) by
    rw [ipv4ToInteger, hsplit]
    exact ipv4_fold_digits toks 0 hdigits]
  rfl

/-- Witness for C3 at `300.1.2`: three octets, one out of range, accepted. -/
theorem parseIp_ipv4_no_octet_validation_witness :
    parseIp "300.1.2" = some ⟨.v4, 19661058, 24⟩ := by
  have h := parseIp_ipv4_no_octet_validation "300.1.2"
    ["300".data, "1".data, "2".data] (by decide) (by decide) (by decide) (by decide) (by decide)
  rw [h]
  decide

/-! ### C9: short IPv6 literals are right-padded with zero hextets -/

/-- C9: a literal containing `:` but no `::`, with fewer than eight
colon-separated groups (each one empty — treated as `0` — or a string of hex
digits), is not rejected: `expand` fills the missing hextets with `"0"` on
the right, so the parsed value is the base-65536 accumulation of the given
groups extended with zero groups to eight.  The 13-digit bound keeps the
float returned by `parseInt` exact; grammatical literals use at most 4. -/
theorem parseIp_ipv6_pads_missing_groups (input : String) (gs : List (List Char))
    (hslash : splitOnChar '/' input.data = [input.data])
    (hdc : splitOnDoubleColon input.data = [input.data])
    (hcolon : input.data.contains ':' = true)
    (hsplit : splitOnChar ':' input.data = gs)
    (hlen : gs.length < 8)
    (hgroups : ∀ g ∈ gs, g = [] ∨ (g.all (fun c => isHexDigit c) = true ∧ g.length ≤ 13)) :
    parseIp input =
      some ⟨.v6,
        ((gs.map fun g => if g = [] then ['0'] else g) ++
            List.replicate (8 - gs.length) ['0']).foldl
          (fun n g => n * 65536 + (hexValue g : ℤ)) 0, 64⟩ := by
  have hexp : ipv6Expand input.data =
      some ((gs.map fun g => if g = [] then ['0'] else g) ++
        List.replicate (8 - gs.length) ['0']) := by
    simp only [ipv6Expand]
    rw [hdc]
    simp only [List.headD_cons, List.tail_cons, List.headD_nil]
    rw [hsplit]
    simp only [if_true, List.length_nil, List.length_map, List.append_nil, Nat.add_zero,
      Nat.sub_zero]
    rw [if_neg (by omega)]
  have hpad : ∀ g ∈ (gs.map fun g => if g = [] then ['0'] else g) ++
      List.replicate (8 - gs.length) ['0'],
      g ≠ [] ∧ g.all (fun c => isHexDigit c) = true := by
    intro g hg
    rcases List.mem_append.1 hg with hmem | hmem
    · obtain ⟨g0, hg0, rfl⟩ := List.mem_map.1 hmem
      by_cases he : g0 = []
      · rw [if_pos he]
        exact ⟨by decide, by decide⟩
      · rw [if_neg he]
        rcases hgroups g0 hg0 with h | h
        · exact absurd h he
        · exact ⟨he, h.1⟩
    · rw [List.eq_of_mem_replicate hmem]
      exact ⟨by decide, by decide⟩
  have hfold : ipv6ToInteger input.data =
      some (((gs.map fun g => if g = [] then ['0'] else g) ++
        List.replicate (8 - gs.length) ['0']).foldl
          (fun n g => n * 65536 + (hexValue g : ℤ)) 0) := by
    rw [ipv6ToInteger, hexp, Option.some_bind]
    exact ipv6_fold_hex _ 0 hpad
  simp only [parseIp]
  rw [hslash]
  simp only [List.headD_cons, List.tail_cons, List.headD_nil]
  rw [if_pos trivial]
  simp only [hcolon, if_true, Option.some_bind]
  rw [hfold]
  rfl

/-- Witness for C9: `2001:db8` parses like `2001:db8:0:0:0:0:0:0`. -/
theorem parseIp_ipv6_pads_missing_groups_witness :
    parseIp "2001:db8" = some ⟨.v6, 42540766411282592856903984951653826560, 64⟩ := by
  have h := parseIp_ipv6_pads_missing_groups "2001:db8" ["2001".data, "db8".data]
    (by decide) (by decide) (by decide) (by decide) (by decide) (by decide)
  rw [h]
  decide
